import Mathlib

/-!
Shallow embedding of the segment-timing engine of the demo-countdown
repository (src/main-gui.py, with the shared helpers that are identical in
src/main.py).  Python floats (wall-clock timestamps, `duration`, `remaining`)
are modelled as rationals; segment planned durations are integers, as
produced by `parse_duration`.  Each keyboard handler of the play-mode event
loop of `run_gui` becomes a state-update function; `time.time()` becomes an
explicit `now : ℚ` argument.
-/

/-- A segment as stored in the module-level `SEGMENTS` list: a
`(name, duration_in_seconds)` pair (main-gui.py line 26, main.py line 26). -/
structure Segment where
  name : String
  duration : Int
  deriving Repr, DecidableEq

/-- The mutable engine state of `run_gui` (main-gui.py lines 185-203):
the module variables `SEGMENTS`, `i`, `paused`, `muted`, `status`,
`duration`, `remaining`, `completed_until`, `demo_started`, `demo_start_ts`,
`demo_end_ts`.  `completed_until = 0` models Python's falsy `0.0`
("no completion hold pending"). -/
structure GuiState where
  segments : List Segment
  i : Nat
  paused : Bool
  muted : Bool
  status : String
  duration : ℚ
  remaining : ℚ
  completed_until : ℚ
  demo_started : Bool
  demo_start_ts : ℚ
  demo_end_ts : ℚ
  deriving Repr, DecidableEq

/-- The state set up at the top of `run_gui` (main-gui.py lines 185-203):
`i = 0`, `paused = True`, `muted = False`, `status = "RUNNING"`,
`duration = SEGMENTS[i][1] if total_segments else 0`,
`remaining = float(duration)`, `completed_until = 0.0`,
`demo_started = False`, `demo_start_ts = demo_end_ts = 0.0`. -/
def initState (segments : List Segment) : GuiState :=
  let d : ℚ := match segments with
    | [] => 0
    | seg :: _ => (seg.duration : ℚ)
  { segments := segments
    i := 0
    paused := true
    muted := false
    status := "RUNNING"
    duration := d
    remaining := d
    completed_until := 0
    demo_started := false
    demo_start_ts := 0
    demo_end_ts := 0 }

/-- Space handler (main-gui.py lines 329-334): guarded by
`total_segments > 0 and time.time() >= completed_until`; flips `paused`;
on the first un-pause stamps `demo_started`/`demo_start_ts`. -/
def pause_toggle (now : ℚ) (s : GuiState) : GuiState :=
  if 0 < s.segments.length ∧ s.completed_until ≤ now then
    let p := !s.paused
    if p = false ∧ s.demo_started = false then
      { s with paused := p, demo_started := true, demo_start_ts := now }
    else
      { s with paused := p }
  else s

/-- `n` handler (main-gui.py lines 335-340): guarded by
`i < total_segments`; sets `status = "COMPLETED"`, `remaining = 0.0`,
`completed_until = time.time() + 0.6`. -/
def next_cmd (now : ℚ) (s : GuiState) : GuiState :=
  if s.i < s.segments.length then
    { s with status := "COMPLETED", remaining := 0, completed_until := now + 3/5 }
  else s

/-- `p` handler (main-gui.py lines 341-353): guarded by `i > 0`;
`i -= 1`, `duration = float(SEGMENTS[i][1])`, `remaining = duration`,
`paused = False`, `status = "RUNNING"`, `completed_until = 0.0`. -/
def prev_cmd (s : GuiState) : GuiState :=
  if 0 < s.i then
    let d : ℚ := ((s.segments.getD (s.i - 1) ⟨"", 0⟩).duration : ℚ)
    { s with i := s.i - 1, duration := d, remaining := d,
             paused := false, status := "RUNNING", completed_until := 0 }
  else s

/-- `+` handler (main-gui.py lines 354-358): guarded by
`i < total_segments and time.time() >= completed_until`;
`duration += 10; remaining += 10`. -/
def increase_duration (now : ℚ) (s : GuiState) : GuiState :=
  if s.i < s.segments.length ∧ s.completed_until ≤ now then
    { s with duration := s.duration + 10, remaining := s.remaining + 10 }
  else s

/-- `-` handler (main-gui.py lines 359-365): guarded by
`i < total_segments and time.time() >= completed_until`; then only if
`duration > 5`: `cut = min(10, duration - 5); duration -= cut;
remaining = min(remaining, duration)`.  The identical logic is at
main.py lines 303-309. -/
def decrease_duration (now : ℚ) (s : GuiState) : GuiState :=
  if s.i < s.segments.length ∧ s.completed_until ≤ now then
    if 5 < s.duration then
      let cut := min 10 (s.duration - 5)
      { s with duration := s.duration - cut,
               remaining := min s.remaining (s.duration - cut) }
    else s
  else s

/-- `m` handler (main-gui.py lines 366-367): `muted = not muted`,
unconditionally. -/
def mute_toggle (s : GuiState) : GuiState :=
  { s with muted := !s.muted }

/-- Per-frame time update (main-gui.py lines 376-379): guarded by
`total_segments > 0 and completed_until == 0.0`; if not paused,
`remaining -= dt`; then `status = "PAUSED" if paused else "RUNNING"`.
The identical countdown step is at main.py lines 269-272. -/
def time_update (dt : ℚ) (s : GuiState) : GuiState :=
  if 0 < s.segments.length ∧ s.completed_until = 0 then
    { s with remaining := if s.paused then s.remaining else s.remaining - dt,
             status := if s.paused then "PAUSED" else "RUNNING" }
  else s

/-- Advance after the completed flash (main-gui.py lines 384-404): guarded
by `total_segments > 0 and completed_until and now_ts >= completed_until`;
`i += 1`; if `i >= total_segments`: `i = total_segments` and stamp
`demo_end_ts = now_ts` only when `demo_end_ts == 0.0 and demo_started`;
otherwise load `SEGMENTS[i]` into `duration`/`remaining`, clear `paused`,
set status RUNNING; finally `completed_until = 0.0`. -/
def advance (now : ℚ) (s : GuiState) : GuiState :=
  if 0 < s.segments.length ∧ s.completed_until ≠ 0 ∧ s.completed_until ≤ now then
    if s.segments.length ≤ s.i + 1 then
      { s with i := s.segments.length,
               demo_end_ts :=
                 if s.demo_end_ts = 0 ∧ s.demo_started then now else s.demo_end_ts,
               completed_until := 0 }
    else
      let d : ℚ := ((s.segments.getD (s.i + 1) ⟨"", 0⟩).duration : ℚ)
      { s with i := s.i + 1, duration := d, remaining := d,
               paused := false, status := "RUNNING", completed_until := 0 }
  else s

/-- Natural completion (main-gui.py lines 407-410): guarded by
`total_segments > 0 and i < total_segments and remaining <= 0 and
completed_until == 0.0`; arms a single completed flash. -/
def arm_completion (now : ℚ) (s : GuiState) : GuiState :=
  if 0 < s.segments.length ∧ s.i < s.segments.length ∧ s.remaining ≤ 0 ∧
      s.completed_until = 0 then
    { s with status := "COMPLETED", completed_until := now + 3/5 }
  else s

/-- Progress fraction of the active segment (main-gui.py line 475,
main.py line 275): `1.0 - max(0.0, remaining) / duration if duration > 0
else 1.0`. -/
def fraction_complete (s : GuiState) : ℚ :=
  if 0 < s.duration then 1 - max 0 s.remaining / s.duration else 1

/-- `total_demo_left_secs` (main-gui.py lines 118-120, main.py lines
185-190): `max(0, ceil(max(0.0, remaining_current)) + future)` where
`future` sums the durations of segments strictly after `current_index`. -/
def total_demo_left_secs (segments : List Segment) (current_index : Nat)
    (remaining_current : ℚ) : Int :=
  let future := ((segments.drop (current_index + 1)).map Segment.duration).sum
  max 0 (⌈max 0 remaining_current⌉ + future)

/-- Python `str.strip()` on a character list: drop whitespace from both
ends. -/
def stripChars (cs : List Char) : List Char :=
  ((cs.dropWhile Char.isWhitespace).reverse.dropWhile Char.isWhitespace).reverse

/-- A non-empty all-digit run, read as a natural number. -/
def parseDigits (cs : List Char) : Option Nat :=
  if cs ≠ [] ∧ cs.all Char.isDigit then
    some (cs.foldl (fun n c => n * 10 + (c.toNat - 48)) 0)
  else none

/-- Python `int(text)` restricted to what this repository feeds it: optional
surrounding whitespace, an optional single `+`/`-` sign, then a non-empty run
of ASCII digits.  (CPython additionally accepts underscore digit separators
and non-ASCII digits; no spec sentence or claim depends on those.)  `none`
models a raised `ValueError`. -/
def pyInt (cs : List Char) : Option Int :=
  match stripChars cs with
  | '+' :: rest => (parseDigits rest).map (fun n => (n : Int))
  | '-' :: rest => (parseDigits rest).map (fun n => -(n : Int))
  | rest => (parseDigits rest).map (fun n => (n : Int))

/-- Python `str.split(sep)` for a one-character separator: always returns at
least one (possibly empty) group. -/
def splitOnChar (sep : Char) : List Char → List (List Char)
  | [] => [[]]
  | c :: rest =>
    let r := splitOnChar sep rest
    if c = sep then [] :: r
    else
      match r with
      | [] => [[c]]
      | g :: gs => (c :: g) :: gs

/-- The single trailing `s`/`S` strip of `parse_duration` (main.py lines
31-32). -/
def stripTrailingS (t0 : List Char) : List Char :=
  if t0.getLast? = some 's' ∨ t0.getLast? = some 'S' then t0.dropLast else t0

/-- Body of `parse_duration` after `text.strip()` (main.py lines 28-42,
identical in main-gui.py lines 28-42): reject empty, strip one trailing
`s`/`S`, then either the colon-separated `MM:SS` / `HH:MM:SS` forms (every
part through Python `int`) or a plain Python integer.  `none` models the
raised `ValueError`. -/
def parseDurationChars (t0 : List Char) : Option Int :=
  if t0 = [] then none
  else if ':' ∈ stripTrailingS t0 then
    match (splitOnChar ':' (stripTrailingS t0)).mapM pyInt with
    | some [m, s] => some (m * 60 + s)
    | some [h, m, s] => some (h * 3600 + m * 60 + s)
    | _ => none
  else pyInt (stripTrailingS t0)

/-- `parse_duration` (main.py lines 27-42, identical in main-gui.py lines
27-42), with the string viewed as its character list. -/
def parse_duration (text : String) : Option Int :=
  parseDurationChars (stripChars text.toList)

/-- The duration text after Python `strip()` and the trailing-`s` strip:
what the colon test and the integer conversions of `parse_duration` actually
see. -/
def strippedCore (text : String) : List Char :=
  stripTrailingS (stripChars text.toList)

example : total_demo_left_secs [⟨"A", 60⟩, ⟨"B", 45⟩, ⟨"C", 30⟩] 1 (52/5) = 41 := by
  show max 0 (⌈max (0:ℚ) (52/5)⌉ + 30) = 41
  rw [show max (0:ℚ) (52/5) = 52/5 by norm_num, show ⌈(52/5:ℚ)⌉ = 11 by
    rw [Int.ceil_eq_iff]; norm_num]
  decide

/-- Editor `Del` handler (main-gui.py lines 293-306): guarded by
`total_segments > 1`; adjusts `i` (`i -= 1` when the deleted row is before
the current one; when deleting the current row, `i` stays unless it was the
last row, in which case `max(0, i - 1)`), deletes the row, reloads
`duration = float(SEGMENTS[i][1])` (0 if the list emptied),
`remaining = float(duration)`, and forces `paused = True`.  The editor's own
`ed_sel_row` re-clamping is selection state, not engine state, and is
omitted.  The index adjustment (lines 294-300) is split out as
`editorIndexAfterDelete`. -/
def editorIndexAfterDelete (s : GuiState) (row : Nat) : Nat :=
  if row < s.i then s.i - 1
  else if row = s.i then
    (if s.i < s.segments.length - 1 then s.i else s.i - 1)
  else s.i

def editor_delete (s : GuiState) (row : Nat) : GuiState :=
  if 1 < s.segments.length then
    let i1 := editorIndexAfterDelete s row
    let segs := s.segments.eraseIdx row
    let d : ℚ := if 0 < segs.length then ((segs.getD i1 ⟨"", 0⟩).duration : ℚ) else 0
    { s with segments := segs, i := i1, duration := d, remaining := d,
             paused := true }
  else s

/-- A live duration-adjust command, with the `time.time()` value observed
when it is handled. -/
inductive AdjCmd
  | inc
  | dec
  deriving Repr, DecidableEq

def applyAdj : AdjCmd → ℚ → GuiState → GuiState
  | .inc, now, s => increase_duration now s
  | .dec, now, s => decrease_duration now s

/-- A whole sequence of `+`/`-` keypresses, applied in order. -/
def applyAdjSeq (cmds : List (AdjCmd × ℚ)) (s : GuiState) : GuiState :=
  cmds.foldl (fun st c => applyAdj c.1 c.2 st) s

/-- Deleting a row leaves the entries before it untouched. -/
theorem getD_eraseIdx_of_lt (l : List Segment) (row k : Nat) (d : Segment)
    (h : k < row) : (l.eraseIdx row).getD k d = l.getD k d := by
  induction l generalizing row k with
  | nil => simp [List.eraseIdx]
  | cons a l ih =>
    cases row with
    | zero => omega
    | succ row =>
      cases k with
      | zero => simp [List.eraseIdx]
      | succ k =>
        simp only [List.eraseIdx, List.getD_cons_succ]
        exact ih row k (by omega)

example : (prev_cmd (initState [⟨"A", 60⟩])).i = 0 := by decide
example : parse_duration "1:30" = some 90 := by decide
example : parse_duration "-3" = some (-3) := by decide
example : parse_duration "90s" = some 90 := by decide
example : parse_duration "1:02:03" = some 3723 := by decide
example : parse_duration "abc" = none := by decide
example : parse_duration "" = none := by decide
example : parse_duration "90ss" = none := by decide

/-- The three-segment list used by the spec's concrete demo-left case. -/
def demoSegs : List Segment := [⟨"A", 60⟩, ⟨"B", 45⟩, ⟨"C", 30⟩]

/-- A reachable terminal ("all complete") state: one segment, `i = 1`. -/
def termStateEx : GuiState :=
  { segments := [⟨"A", 60⟩], i := 1, paused := true, muted := false,
    status := "RUNNING", duration := 60, remaining := 0, completed_until := 0,
    demo_started := true, demo_start_ts := 0, demo_end_ts := 5 }

/-- A running state on segment 0 with the live duration adjusted to 12. -/
def dur12Ex : GuiState :=
  { segments := demoSegs, i := 0, paused := false, muted := false,
    status := "RUNNING", duration := 12, remaining := 9, completed_until := 0,
    demo_started := true, demo_start_ts := 0, demo_end_ts := 0 }

/-- C6: for all dt >= 0, when paused is set, the per-frame time update
leaves `remaining` unchanged. -/
theorem tick_paused_remaining (s : GuiState) (dt : ℚ)
    (hdt : 0 ≤ dt) (hp : s.paused = true) :
    (time_update dt s).remaining = s.remaining := by
  unfold time_update
  split_ifs with h
  · simp [hp]
  · rfl

theorem tick_paused_remaining_witness :
    (0:ℚ) ≤ 1 ∧ termStateEx.paused = true ∧
      (time_update 1 termStateEx).remaining = termStateEx.remaining :=
  ⟨by norm_num, rfl, tick_paused_remaining termStateEx 1 (by norm_num) rfl⟩

/-- C2 counterexample: `termStateEx` is terminal (`i = len(segments) = 1`),
yet `mute_toggle` flips `muted` and `previous` decrements the index — the
handlers for `m` (main-gui.py line 366) and `p` (line 341) are not gated on
`i < total_segments`, so they are not no-ops in the terminal state. -/
theorem terminal_noop_cex :
    termStateEx.segments.length ≤ termStateEx.i ∧
      (mute_toggle termStateEx).muted ≠ termStateEx.muted ∧
      (prev_cmd termStateEx).i ≠ termStateEx.i := by
  refine ⟨by decide, by decide, ?_⟩
  decide

/-- C2 amended: in the terminal state the `next`, `increase_duration` and
`decrease_duration` handlers are no-ops (they are gated on
`i < total_segments`); `pause_toggle`, `previous` and `mute_toggle` are
not so gated and can still change the state. -/
theorem terminal_noop_amended (s : GuiState) (now : ℚ)
    (h : s.segments.length ≤ s.i) :
    next_cmd now s = s ∧ increase_duration now s = s ∧
      decrease_duration now s = s := by
  unfold next_cmd increase_duration decrease_duration
  refine ⟨?_, ?_, ?_⟩ <;> split_ifs <;> first | rfl | omega

theorem terminal_noop_amended_witness :
    termStateEx.segments.length ≤ termStateEx.i ∧
      (next_cmd 7 termStateEx = termStateEx ∧
        increase_duration 7 termStateEx = termStateEx ∧
        decrease_duration 7 termStateEx = termStateEx) :=
  ⟨by decide, terminal_noop_amended termStateEx 7 (by decide)⟩

/-- C4 counterexample: in a responsive state with `current_duration = 12`,
the `-` handler computes `cut = min(10, 12 - 5) = 7` and leaves
`current_duration = 12 - 7 = 5`, not 7 as the claim's concrete case says
(7 is the clamped cut, not the resulting duration). -/
theorem decrease_duration_cex :
    dur12Ex.i < dur12Ex.segments.length ∧ dur12Ex.completed_until ≤ 0 ∧
      dur12Ex.duration = 12 ∧
      (decrease_duration 0 dur12Ex).duration = 5 ∧
      (decrease_duration 0 dur12Ex).duration ≠ 7 := by
  refine ⟨by decide, by decide, by decide, ?_, ?_⟩
  · show ((12:ℚ) - min 10 (12 - 5)) = 5
    norm_num
  · show ((12:ℚ) - min 10 (12 - 5)) ≠ 7
    norm_num

/-- C4 amended: in a responsive state (`i < len(segments)`,
`completed_until <= now`), `decrease_duration` is a no-op unless
`current_duration > 5`; otherwise it subtracts `cut = min(10,
current_duration - 5)` and clamps `remaining = min(remaining, new
current_duration)`, never increasing `remaining`; in particular from
`current_duration = 12` it yields `current_duration = 5` (cut clamped to 7)
and `remaining <= 5`. -/
theorem decrease_duration_spec (s : GuiState) (now : ℚ)
    (hi : s.i < s.segments.length) (hc : s.completed_until ≤ now) :
    (¬ 5 < s.duration → decrease_duration now s = s) ∧
      (5 < s.duration →
        (decrease_duration now s).duration = s.duration - min 10 (s.duration - 5) ∧
        (decrease_duration now s).remaining =
          min s.remaining ((decrease_duration now s).duration)) ∧
      (decrease_duration now s).remaining ≤ s.remaining ∧
      (s.duration = 12 →
        (decrease_duration now s).duration = 5 ∧
        (decrease_duration now s).remaining ≤ 5) := by
  unfold decrease_duration
  rw [if_pos ⟨hi, hc⟩]
  split_ifs with h5
  · refine ⟨fun h => absurd h5 h, fun _ => ⟨rfl, rfl⟩, min_le_left _ _, fun h12 => ?_⟩
    constructor
    · show s.duration - min 10 (s.duration - 5) = 5
      rw [h12]; norm_num
    · show min s.remaining (s.duration - min 10 (s.duration - 5)) ≤ 5
      rw [h12]
      exact le_trans (min_le_right _ _) (by norm_num)
  · refine ⟨fun _ => rfl, fun h => absurd h h5, le_refl _, fun h12 => ?_⟩
    rw [h12] at h5
    norm_num at h5

theorem decrease_duration_spec_witness :
    dur12Ex.i < dur12Ex.segments.length ∧ dur12Ex.completed_until ≤ 3 ∧
      ((decrease_duration 3 dur12Ex).duration = 5 ∧
        (decrease_duration 3 dur12Ex).remaining ≤ 5) :=
  ⟨by decide, by decide,
    (decrease_duration_spec dur12Ex 3 (by decide) (by decide)).2.2.2 rfl⟩

/-- One `+`/`-` keypress preserves the 5-second floor on the live
duration. -/
theorem adjStep_floor (c : AdjCmd) (now : ℚ) (s : GuiState)
    (h : 5 ≤ s.duration) : 5 ≤ (applyAdj c now s).duration := by
  cases c
  · show 5 ≤ (increase_duration now s).duration
    unfold increase_duration
    split_ifs
    · show 5 ≤ s.duration + 10
      linarith
    · exact h
  · show 5 ≤ (decrease_duration now s).duration
    unfold decrease_duration
    split_ifs with h1 h2
    · show 5 ≤ s.duration - min 10 (s.duration - 5)
      have hm := min_le_right (10:ℚ) (s.duration - 5)
      linarith
    · exact h
    · exact h

/-- C3 counterexample: the parser accepts a 3-second duration, and the
start-up state for a segment list headed by a 3-second segment has
`current_index < len(segments)` but `current_duration = 3 < 5`: nothing in
the code enforces the floor at load time. -/
theorem duration_floor_cex :
    parse_duration "3" = some 3 ∧
      (initState [⟨"Intro", 3⟩]).i < (initState [⟨"Intro", 3⟩]).segments.length ∧
      (initState [⟨"Intro", 3⟩]).duration < 5 := by
  refine ⟨by decide, by decide, ?_⟩
  show ((3:Int):ℚ) < 5
  norm_num

/-- C3 amended: `current_duration >= 5` is preserved by every sequence of
`increase_duration`/`decrease_duration` commands from any state satisfying
it, and it holds in the initial state provided every planned duration is at
least 5 (true of the built-in default list); a loaded segment with a planned
duration below 5 violates it already in the initial state. -/
theorem duration_floor_amended (segs : List Segment)
    (cmds : List (AdjCmd × ℚ)) (s : GuiState) :
    (5 ≤ s.duration → 5 ≤ (applyAdjSeq cmds s).duration) ∧
      ((∀ seg ∈ segs, 5 ≤ seg.duration) → 0 < segs.length →
        5 ≤ (initState segs).duration) := by
  constructor
  · intro h
    induction cmds generalizing s with
    | nil => exact h
    | cons c cs ih => exact ih _ (adjStep_floor c.1 c.2 s h)
  · intro hall hlen
    cases segs with
    | nil => simp at hlen
    | cons a l =>
      show (5:ℚ) ≤ ((a.duration : Int) : ℚ)
      exact_mod_cast hall a (List.mem_cons_self a l)

theorem duration_floor_amended_witness :
    5 ≤ (initState demoSegs).duration ∧
      5 ≤ (applyAdjSeq [(AdjCmd.dec, 0)] (initState demoSegs)).duration := by
  have h5 : 5 ≤ (initState demoSegs).duration := by
    show (5:ℚ) ≤ ((60:Int):ℚ)
    norm_num
  exact ⟨h5, (duration_floor_amended demoSegs [(AdjCmd.dec, 0)]
    (initState demoSegs)).1 h5⟩

/-- C8: the progress fraction is `1 - max(0, remaining)/current_duration`
exactly when `current_duration > 0` and is defined as exactly 1 when
`current_duration <= 0`; in the degenerate empty-segment-list start-up state
(`duration = 0`) it is 1 and the time update is a no-op, so no division by
zero is ever performed. -/
theorem fraction_complete_spec (s : GuiState) (dt : ℚ) :
    (0 < s.duration → fraction_complete s = 1 - max 0 s.remaining / s.duration) ∧
      (s.duration ≤ 0 → fraction_complete s = 1) ∧
      fraction_complete (initState []) = 1 ∧
      time_update dt (initState []) = initState [] := by
  refine ⟨fun h => ?_, fun h => ?_, ?_, ?_⟩
  · unfold fraction_complete
    rw [if_pos h]
  · unfold fraction_complete
    rw [if_neg (not_lt.mpr h)]
  · rfl
  · rfl

theorem fraction_complete_spec_witness :
    (0 < dur12Ex.duration ∧
      fraction_complete dur12Ex = 1 - max 0 dur12Ex.remaining / dur12Ex.duration) ∧
      ((initState []).duration ≤ 0 ∧ fraction_complete (initState []) = 1) :=
  ⟨⟨by decide, (fraction_complete_spec dur12Ex 0).1 (by decide)⟩,
    ⟨by decide, (fraction_complete_spec (initState []) 0).2.1 (by decide)⟩⟩

/-- C7: whenever every planned duration is non-negative (the data model's
range), the total demo-left equals `ceil(max(0, remaining))` plus the sum of
the planned durations of all strictly-later segments — the outer `max(0, .)`
in the code never bites; concretely, on `[(A,60),(B,45),(C,30)]` at index 1
with remaining 10.4 it is 41. -/
theorem demo_left_formula (segs : List Segment) (i : Nat) (r : ℚ) :
    (i < segs.length → (∀ seg ∈ segs, 0 ≤ seg.duration) →
      total_demo_left_secs segs i r =
        ⌈max 0 r⌉ + ((segs.drop (i + 1)).map Segment.duration).sum) ∧
      total_demo_left_secs demoSegs 1 (52/5) = 41 := by
  constructor
  · intro hi hall
    unfold total_demo_left_secs
    have h1 : 0 ≤ ⌈max (0:ℚ) r⌉ := Int.ceil_nonneg (le_max_left 0 r)
    have h2 : 0 ≤ ((segs.drop (i + 1)).map Segment.duration).sum := by
      apply List.sum_nonneg
      intro x hx
      rcases List.mem_map.mp hx with ⟨seg, hseg, rfl⟩
      exact hall seg (List.mem_of_mem_drop hseg)
    exact max_eq_right (by linarith)
  · show max 0 (⌈max (0:ℚ) (52/5)⌉ + 30) = 41
    rw [show max (0:ℚ) (52/5) = 52/5 by norm_num, show ⌈(52/5:ℚ)⌉ = 11 by
      rw [Int.ceil_eq_iff]; norm_num]
    decide

theorem demo_left_formula_witness :
    1 < demoSegs.length ∧ (∀ seg ∈ demoSegs, 0 ≤ seg.duration) ∧
      total_demo_left_secs demoSegs 1 (52/5) =
        ⌈max 0 (52/5 : ℚ)⌉ + ((demoSegs.drop 2).map Segment.duration).sum :=
  ⟨by decide, by decide,
    (demo_left_formula demoSegs 1 (52/5)).1 (by decide) (by decide)⟩

/-- C5: `next` on segment k zeroes `remaining`, flags COMPLETED and arms the
hold at `now + 0.6`; once the deadline passes, the advance step increments
the index (clamped to `len(segments)`) and clears the hold; if the new index
is in bounds it loads the next planned duration into both `duration` and
`remaining`, clears `paused` and sets RUNNING; if it reaches
`len(segments)` the state is terminal and `demo_end_ts` is stamped with
`now` exactly when it was still unset and the demo had started. -/
theorem next_then_advance (s : GuiState) (now1 now2 : ℚ)
    (hi : s.i < s.segments.length) (hn1 : 0 ≤ now1)
    (hn2 : now1 + 3/5 ≤ now2) :
    (next_cmd now1 s).remaining = 0 ∧
      (next_cmd now1 s).status = "COMPLETED" ∧
      (next_cmd now1 s).completed_until = now1 + 3/5 ∧
      (next_cmd now1 s).completed_until ≠ 0 ∧
      (next_cmd now1 s).i = s.i ∧
      (advance now2 (next_cmd now1 s)).i = min (s.i + 1) s.segments.length ∧
      (advance now2 (next_cmd now1 s)).completed_until = 0 ∧
      (s.i + 1 < s.segments.length →
        (advance now2 (next_cmd now1 s)).duration
            = ((s.segments.getD (s.i + 1) ⟨"", 0⟩).duration : ℚ) ∧
        (advance now2 (next_cmd now1 s)).remaining
            = (advance now2 (next_cmd now1 s)).duration ∧
        (advance now2 (next_cmd now1 s)).paused = false ∧
        (advance now2 (next_cmd now1 s)).status = "RUNNING") ∧
      (s.i + 1 = s.segments.length →
        (advance now2 (next_cmd now1 s)).i = s.segments.length ∧
        (advance now2 (next_cmd now1 s)).demo_end_ts =
          (if s.demo_end_ts = 0 ∧ s.demo_started then now2 else s.demo_end_ts)) := by
  have hcu : (now1 + 3/5 : ℚ) ≠ 0 := by
    have h : (0:ℚ) < now1 + 3/5 := by linarith
    exact h.ne'
  have hpos : 0 < s.segments.length := by omega
  unfold next_cmd advance
  rw [if_pos hi]
  by_cases hc : s.segments.length ≤ s.i + 1
  · rw [if_pos (⟨hpos, hcu, hn2⟩ :
        0 < s.segments.length ∧ (now1 + 3/5 : ℚ) ≠ 0 ∧ now1 + 3/5 ≤ now2),
      if_pos hc]
    refine ⟨rfl, rfl, rfl, hcu, rfl, ?_, rfl, fun hmid => absurd hmid (by omega),
      fun hlast => ⟨?_, rfl⟩⟩
    · show s.segments.length = min (s.i + 1) s.segments.length
      omega
    · show s.segments.length = s.segments.length
      rfl
  · rw [if_pos (⟨hpos, hcu, hn2⟩ :
        0 < s.segments.length ∧ (now1 + 3/5 : ℚ) ≠ 0 ∧ now1 + 3/5 ≤ now2),
      if_neg hc]
    refine ⟨rfl, rfl, rfl, hcu, rfl, ?_, rfl, fun hmid => ⟨rfl, rfl, rfl, rfl⟩,
      fun hlast => absurd hlast (by omega)⟩
    show s.i + 1 = min (s.i + 1) s.segments.length
    omega

theorem next_then_advance_witness :
    (0:ℚ) ≤ 0 ∧ (0:ℚ) + 3/5 ≤ 1 ∧
      (next_cmd 0 (initState [⟨"A", 60⟩, ⟨"B", 45⟩])).remaining = 0 ∧
      (advance 1 (next_cmd 0 (initState [⟨"A", 60⟩, ⟨"B", 45⟩]))).duration
        = ((45:Int):ℚ) := by
  have h := next_then_advance (initState [⟨"A", 60⟩, ⟨"B", 45⟩]) 0 1
    (by decide) (by norm_num) (by norm_num)
  exact ⟨by norm_num, by norm_num, h.1, (h.2.2.2.2.2.2.2.1 (by decide)).1⟩

/-- C1: `previous` from `current_index = k > 0` decrements the index,
reloads `segments[k-1]`'s original planned duration as `current_duration`,
resets `remaining = current_duration`, clears `paused`, sets status RUNNING
and cancels any pending hold; at `current_index = 0` it is a no-op.  The
`+`/`-` adjustments never write back into `segments`, so after adjusting
segment k, leaving it via `next` + the advance step, `previous` restores
the original planned duration, discarding the adjustment. -/
theorem prev_restores_planned (s : GuiState) (now0 now1 now2 : ℚ) :
    (0 < s.i →
      (prev_cmd s).i = s.i - 1 ∧
      (prev_cmd s).duration = ((s.segments.getD (s.i - 1) ⟨"", 0⟩).duration : ℚ) ∧
      (prev_cmd s).remaining = (prev_cmd s).duration ∧
      (prev_cmd s).paused = false ∧
      (prev_cmd s).status = "RUNNING" ∧
      (prev_cmd s).completed_until = 0 ∧
      (prev_cmd s).segments = s.segments) ∧
      (s.i = 0 → prev_cmd s = s) ∧
      (increase_duration now0 s).segments = s.segments ∧
      (decrease_duration now0 s).segments = s.segments ∧
      (s.i < s.segments.length → s.completed_until ≤ now0 → 0 ≤ now1 →
        now1 + 3/5 ≤ now2 →
        (prev_cmd (advance now2 (next_cmd now1 (increase_duration now0 s)))).duration
          = ((s.segments.getD s.i ⟨"", 0⟩).duration : ℚ)) := by
  refine ⟨fun hi => ?_, fun h0 => ?_, ?_, ?_, fun hi hc0 hn1 hn2 => ?_⟩
  · unfold prev_cmd
    rw [if_pos hi]
    exact ⟨rfl, rfl, rfl, rfl, rfl, rfl, rfl⟩
  · unfold prev_cmd
    rw [if_neg (by omega)]
  · unfold increase_duration
    split_ifs <;> rfl
  · unfold decrease_duration
    split_ifs <;> rfl
  · have hcu : (now1 + 3/5 : ℚ) ≠ 0 := by
      have h : (0:ℚ) < now1 + 3/5 := by linarith
      exact h.ne'
    have hpos : 0 < s.segments.length := by omega
    unfold increase_duration next_cmd advance prev_cmd
    rw [if_pos (⟨hi, hc0⟩ :
      s.i < s.segments.length ∧ s.completed_until ≤ now0)]
    rw [if_pos hi]
    by_cases hc : s.segments.length ≤ s.i + 1
    · rw [if_pos (⟨hpos, hcu, hn2⟩ :
          0 < s.segments.length ∧ (now1 + 3/5 : ℚ) ≠ 0 ∧ now1 + 3/5 ≤ now2),
        if_pos hc, if_pos (show 0 < s.segments.length from hpos)]
      show ((s.segments.getD (s.segments.length - 1) ⟨"", 0⟩).duration : ℚ) = _
      have hidx : s.segments.length - 1 = s.i := by omega
      rw [hidx]
    · rw [if_pos (⟨hpos, hcu, hn2⟩ :
          0 < s.segments.length ∧ (now1 + 3/5 : ℚ) ≠ 0 ∧ now1 + 3/5 ≤ now2),
        if_neg hc, if_pos (show 0 < s.i + 1 from Nat.succ_pos _)]
      show ((s.segments.getD (s.i + 1 - 1) ⟨"", 0⟩).duration : ℚ) = _
      rw [Nat.add_sub_cancel]

theorem prev_restores_planned_witness :
    (prev_cmd (advance 1 (next_cmd 0 (increase_duration 0
        (initState [⟨"A", 60⟩, ⟨"B", 45⟩]))))).duration = ((60:Int):ℚ) :=
  (prev_restores_planned (initState [⟨"A", 60⟩, ⟨"B", 45⟩]) 0 0 1).2.2.2.2
    (by decide) (by decide) (by norm_num) (by norm_num)

/-- C10: with more than one segment, deleting any valid row while a segment
is active forces `paused = true`, shortens the list by one, keeps the
(adjusted) current index in bounds, and resets the countdown: `remaining`
is set to the full planned duration of the segment then at the current
index — in particular, when the deleted row is strictly after the current
segment, the current index is unchanged and `remaining` is reset to the
untouched current segment's planned duration. -/
theorem editor_delete_resets (s : GuiState) (row : Nat)
    (hlen : 1 < s.segments.length) (hrow : row < s.segments.length)
    (hi : s.i < s.segments.length) :
    (editor_delete s row).paused = true ∧
      (editor_delete s row).segments.length = s.segments.length - 1 ∧
      (editor_delete s row).i < (editor_delete s row).segments.length ∧
      (editor_delete s row).duration =
        (((editor_delete s row).segments.getD (editor_delete s row).i
          ⟨"", 0⟩).duration : ℚ) ∧
      (editor_delete s row).remaining = (editor_delete s row).duration ∧
      (s.i < row →
        (editor_delete s row).i = s.i ∧
        (editor_delete s row).remaining =
          ((s.segments.getD s.i ⟨"", 0⟩).duration : ℚ)) := by
  have hlen1 : (s.segments.eraseIdx row).length = s.segments.length - 1 := by
    have h := List.length_eraseIdx_add_one hrow
    omega
  have hpos : 0 < (s.segments.eraseIdx row).length := by
    rw [hlen1]
    omega
  have hibound : editorIndexAfterDelete s row < (s.segments.eraseIdx row).length := by
    unfold editorIndexAfterDelete
    rw [hlen1]
    split_ifs <;> omega
  unfold editor_delete
  rw [if_pos hlen]
  refine ⟨rfl, hlen1, hibound, ?_, rfl, fun hlt => ⟨?_, ?_⟩⟩
  · show (if 0 < (s.segments.eraseIdx row).length then
        (((s.segments.eraseIdx row).getD (editorIndexAfterDelete s row)
          ⟨"", 0⟩).duration : ℚ) else 0) = _
    rw [if_pos hpos]
  · show editorIndexAfterDelete s row = s.i
    unfold editorIndexAfterDelete
    split_ifs <;> omega
  · have hIdx : editorIndexAfterDelete s row = s.i := by
      unfold editorIndexAfterDelete
      split_ifs <;> omega
    show (if 0 < (s.segments.eraseIdx row).length then
        (((s.segments.eraseIdx row).getD (editorIndexAfterDelete s row)
          ⟨"", 0⟩).duration : ℚ) else 0) = _
    rw [if_pos hpos, hIdx, getD_eraseIdx_of_lt s.segments row s.i ⟨"", 0⟩ hlt]

theorem editor_delete_resets_witness :
    1 < demoSegs.length ∧
      ((editor_delete (initState demoSegs) 2).i = 0 ∧
        (editor_delete (initState demoSegs) 2).remaining =
          ((demoSegs.getD 0 ⟨"", 0⟩).duration : ℚ)) :=
  ⟨by decide,
    (editor_delete_resets (initState demoSegs) 2 (by decide) (by decide)
        (by decide)).2.2.2.2.2 (by decide)⟩

/-- C9 counterexample: Python `int` accepts a sign, so the parser accepts
the duration text `-3` and produces the negative planned duration `-3`,
refuting "the resulting planned_duration is an integer >= 0". -/
theorem parse_duration_cex :
    parse_duration "-3" = some (-3) ∧ ¬ (0 ≤ (-3 : Int)) := by
  exact ⟨by decide, by decide⟩

/-- C9 amended: every duration text accepted by the parser, after a single
trailing `s`/`S` is stripped, denotes a plain Python integer number of
seconds, or `MM:SS` meaning `M*60+S`, or `HH:MM:SS` meaning
`H*3600+M*60+S`; the components admit Python's optional sign, so the result
is an integer but not necessarily non-negative. -/
theorem parse_duration_forms (text : String) (v : Int)
    (h : parse_duration text = some v) :
    (¬ ':' ∈ strippedCore text ∧ pyInt (strippedCore text) = some v) ∨
      (∃ m s, (splitOnChar ':' (strippedCore text)).mapM pyInt = some [m, s] ∧
        v = m * 60 + s) ∨
      (∃ hh m s,
        (splitOnChar ':' (strippedCore text)).mapM pyInt = some [hh, m, s] ∧
        v = hh * 3600 + m * 60 + s) := by
  unfold parse_duration parseDurationChars at h
  by_cases hu : stripChars text.toList = []
  · rw [if_pos hu] at h
    exact Option.noConfusion h
  · rw [if_neg hu] at h
    by_cases hcol : ':' ∈ stripTrailingS (stripChars text.toList)
    · rw [if_pos hcol] at h
      rcases he : (splitOnChar ':' (stripTrailingS (stripChars text.toList))).mapM pyInt
        with _ | l
      · rw [he] at h
        exact Option.noConfusion h
      · rw [he] at h
        rcases l with _ | ⟨m, _ | ⟨s2, _ | ⟨s3, _ | ⟨s4, rest⟩⟩⟩⟩
        · exact Option.noConfusion h
        · exact Option.noConfusion h
        · exact Or.inr (Or.inl ⟨m, s2, he, (Option.some.inj h).symm⟩)
        · exact Or.inr (Or.inr ⟨m, s2, s3, he, (Option.some.inj h).symm⟩)
        · exact Option.noConfusion h
    · rw [if_neg hcol] at h
      exact Or.inl ⟨hcol, h⟩

theorem parse_duration_forms_witness :
    parse_duration "1:30" = some 90 ∧
      ((¬ ':' ∈ strippedCore "1:30" ∧ pyInt (strippedCore "1:30") = some 90) ∨
        (∃ m s, (splitOnChar ':' (strippedCore "1:30")).mapM pyInt = some [m, s] ∧
          (90:Int) = m * 60 + s) ∨
        (∃ hh m s,
          (splitOnChar ':' (strippedCore "1:30")).mapM pyInt = some [hh, m, s] ∧
          (90:Int) = hh * 3600 + m * 60 + s)) :=
  ⟨by decide, parse_duration_forms "1:30" 90 (by decide)⟩
